import Mathlib

/-
Verification of the name-reconciliation program
`verif_joueurs_laliga_SAFE_MATCH.py`.

The program is embedded shallowly:

* pure string helpers (`remove_accents`, `extract_first_name`) become Lean
  functions on `String` / `List Char`;
* Python code that can raise (`"".split()[0]` raises `IndexError`) is
  modelled with `Option`: `none` is the exception path;
* the similarity metric `rapidfuzz.fuzz.token_sort_ratio` is embedded as
  `tokenSortScore` (whitespace tokenisation, lexicographic token sort,
  indel-based normalised similarity over `ℚ`, two empty strings score 100,
  exactly as rapidfuzz computes it);
* the per-club reconciliation loop `verifier_effectifs` becomes a fold over
  the fixed club catalogue, with the provider (network + cache) abstracted
  as a pure function `rosters : Nat → List String`, and the provider client
  `fetch_or_load_players` modelled over an explicit environment recording
  the cache / network outcomes of one call.

Recursions are structural (fuel-based where the Python recursion pattern is
not structural) so every definition evaluates by kernel reduction.
-/

attribute [local semireducible] Rat.mul Rat.add Rat.inv Rat.sub Rat.ofScientific

/-! ### Python string primitives -/

/-- Model of Python `str.split()` (split on whitespace runs, dropping empty
tokens), on character lists.  Structural on a fuel argument (one unit of fuel
consumes at least one character, so `cs.length` units suffice). -/
def pySplitAux : Nat → List Char → List (List Char)
  | 0, _ => []
  | _ + 1, [] => []
  | fuel + 1, c :: cs =>
    if c.isWhitespace then pySplitAux fuel cs
    else (c :: cs.takeWhile (fun d => !d.isWhitespace)) ::
      pySplitAux fuel (cs.dropWhile (fun d => !d.isWhitespace))

/-- Python `str.split()` on a character list. -/
def pySplitChars (cs : List Char) : List (List Char) :=
  pySplitAux cs.length cs

/-- Python `str.strip()` on a character list: drop leading and trailing
whitespace. -/
def pyStripChars (cs : List Char) : List Char :=
  ((cs.dropWhile Char.isWhitespace).reverse.dropWhile Char.isWhitespace).reverse

/-- Python `str.lower()`.  The names handled by the program are Latin; after
`remove_accents` they are ASCII, for which `Char.toLower` agrees with
Python's `str.lower()`. -/
def pyLower (s : String) : String :=
  String.mk (s.data.map Char.toLower)

/-! ### Unicode model (the `unicodedata` library) -/

/-- Canonical (NFD) decomposition of one character.  Modelled from the
`unicodedata.normalize('NFD', ·)` library call, restricted to the
precomposed Latin letters relevant to the program's inputs (player names);
every other character decomposes to itself. -/
def nfdChar : Char → List Char
  | 'á' => ['a', Char.ofNat 0x301]
  | 'à' => ['a', Char.ofNat 0x300]
  | 'â' => ['a', Char.ofNat 0x302]
  | 'ä' => ['a', Char.ofNat 0x308]
  | 'ã' => ['a', Char.ofNat 0x303]
  | 'å' => ['a', Char.ofNat 0x30A]
  | 'ç' => ['c', Char.ofNat 0x327]
  | 'é' => ['e', Char.ofNat 0x301]
  | 'è' => ['e', Char.ofNat 0x300]
  | 'ê' => ['e', Char.ofNat 0x302]
  | 'ë' => ['e', Char.ofNat 0x308]
  | 'í' => ['i', Char.ofNat 0x301]
  | 'ì' => ['i', Char.ofNat 0x300]
  | 'î' => ['i', Char.ofNat 0x302]
  | 'ï' => ['i', Char.ofNat 0x308]
  | 'ñ' => ['n', Char.ofNat 0x303]
  | 'ó' => ['o', Char.ofNat 0x301]
  | 'ò' => ['o', Char.ofNat 0x300]
  | 'ô' => ['o', Char.ofNat 0x302]
  | 'ö' => ['o', Char.ofNat 0x308]
  | 'õ' => ['o', Char.ofNat 0x303]
  | 'ú' => ['u', Char.ofNat 0x301]
  | 'ù' => ['u', Char.ofNat 0x300]
  | 'û' => ['u', Char.ofNat 0x302]
  | 'ü' => ['u', Char.ofNat 0x308]
  | 'ý' => ['y', Char.ofNat 0x301]
  | 'Á' => ['A', Char.ofNat 0x301]
  | 'À' => ['A', Char.ofNat 0x300]
  | 'É' => ['E', Char.ofNat 0x301]
  | 'Í' => ['I', Char.ofNat 0x301]
  | 'Ñ' => ['N', Char.ofNat 0x303]
  | 'Ó' => ['O', Char.ofNat 0x301]
  | 'Ú' => ['U', Char.ofNat 0x301]
  | 'Ü' => ['U', Char.ofNat 0x308]
  | 'Ç' => ['C', Char.ofNat 0x327]
  | c => [c]

/-- Unicode category `Mn` (nonspacing combining mark), restricted to the
Combining Diacritical Marks block, which covers every mark produced by
`nfdChar`. -/
def isCombiningMark (c : Char) : Bool :=
  0x300 ≤ c.toNat && c.toNat ≤ 0x36F

/-- `remove_accents` from the source (lines 42–46): NFD-decompose the string
and keep the characters whose category is not `Mn`. -/
def remove_accents (text : String) : String :=
  String.mk (((text.data.map nfdChar).flatten).filter (fun c => !isCombiningMark c))

/-- `extract_first_name` from the source (lines 48–49):
`remove_accents(full_name.strip().split()[0]).lower()`.
Python's `split()[0]` raises `IndexError` when there is no token (empty or
whitespace-only input); that exception path is modelled by `none`. -/
def extract_first_name (full_name : String) : Option String :=
  match pySplitChars (pyStripChars full_name.data) with
  | [] => none
  | t :: _ => some (pyLower (remove_accents (String.mk t)))

/-! ### The similarity metric (`rapidfuzz.fuzz.token_sort_ratio`) -/

/-- Indel (insertions/deletions only) edit distance between two character
lists, the distance underlying rapidfuzz's `fuzz.ratio`.  Structural on a
fuel argument; `xs.length + ys.length` units of fuel always suffice, and the
fuel-0 value is chosen so that the fully fuelled result is the true
distance. -/
def indelAux : Nat → List Char → List Char → Nat
  | 0, xs, ys => xs.length + ys.length
  | _ + 1, [], ys => ys.length
  | _ + 1, xs, [] => xs.length
  | fuel + 1, x :: xs, y :: ys =>
    if x = y then indelAux fuel xs ys
    else 1 + min (indelAux fuel xs (y :: ys)) (indelAux fuel (x :: xs) ys)

/-- Indel edit distance. -/
def indelDist (xs ys : List Char) : Nat :=
  indelAux (xs.length + ys.length) xs ys

/-- rapidfuzz `fuzz.ratio`: normalised indel similarity as a percentage,
`100 * (n - dist) / n` with `n` the total length; two empty strings score
100 (rapidfuzz's convention). -/
def fuzzScore (a b : List Char) : ℚ :=
  let n : Nat := a.length + b.length
  if n = 0 then 100 else 100 * ((n : ℚ) - indelDist a b) / (n : ℚ)

/-- Python string comparison, lexicographic on code points (used by
`sorted`). -/
def lexLt : List Char → List Char → Bool
  | [], [] => false
  | [], _ :: _ => true
  | _ :: _, [] => false
  | a :: as, b :: bs =>
    if a < b then true else if b < a then false else lexLt as bs

/-- Insertion step of an ascending insertion sort by `lexLt`. -/
def insertTok (t : List Char) : List (List Char) → List (List Char)
  | [] => [t]
  | u :: us => if lexLt u t then u :: insertTok t us else t :: u :: us

/-- Python `sorted` on a token list (ascending, lexicographic). -/
def sortToks (ts : List (List Char)) : List (List Char) :=
  ts.foldr insertTok []

/-- `" ".join(tokens)`. -/
def joinTokens : List (List Char) → List Char
  | [] => []
  | [t] => t
  | t :: ts => t ++ ' ' :: joinTokens ts

/-- rapidfuzz `fuzz.token_sort_ratio` (source line 105): split both strings
on whitespace, sort the tokens, re-join with single spaces, and take the
indel similarity of the results. -/
def tokenSortScore (s1 s2 : String) : ℚ :=
  fuzzScore (joinTokens (sortToks (pySplitChars s1.data)))
    (joinTokens (sortToks (pySplitChars s2.data)))

/-! ### Best-candidate selection (source lines 114–115) -/

/-- Insertion step of a stable descending insertion sort by score:
`scores.sort(key=lambda x: x[1], reverse=True)`.  An element already in the
list stays in front of the new one exactly when its score is strictly
larger, which is the stable behaviour of Python's sort. -/
def insertDesc (p : String × ℚ) : List (String × ℚ) → List (String × ℚ)
  | [] => [p]
  | q :: qs => if p.2 < q.2 then q :: insertDesc p qs else p :: q :: qs

/-- Stable sort by descending score. -/
def sortDesc (l : List (String × ℚ)) : List (String × ℚ) :=
  l.foldr insertDesc []

/-- `best, score = scores[0] if scores else ("", 0)` after the descending
stable sort. -/
def bestPair (l : List (String × ℚ)) : String × ℚ :=
  (sortDesc l).headD ("", 0)

/-! ### Data model -/

/-- One row of the user table after column selection and `dropna`. -/
structure SheetRow where
  player_display_name : String
  team_slug : String
deriving DecidableEq

/-- One raw row of the user table; `none` models a missing (NaN) cell. -/
structure RawRow where
  player_display_name : Option String
  team_slug : Option String
deriving DecidableEq

/-- One output record of the report (source lines 130–137 and 141–148).
`similarite` is `none` when the Python code stores the empty string instead
of a number. -/
structure Row where
  nom_liste : String
  club_liste : String
  nom_tm : String
  similarite : Option ℚ
  match_valide : String
  type_value : String
deriving DecidableEq

/-- `df[["player_display_name", "team_slug"]].dropna()` (source line 79). -/
def dropna (df : List RawRow) : List SheetRow :=
  df.filterMap (fun r =>
    match r.player_display_name, r.team_slug with
    | some n, some s => some ⟨n, s⟩
    | _, _ => none)

/-- The fixed club catalogue (source lines 19–40), in its literal order;
Python dicts iterate in insertion order. -/
def CLUB_SLUG_TO_ID : List (String × Nat) :=
  [("athletic-club-bilbao", 621),
   ("atletico-madrid-madrid", 13),
   ("barcelona-barcelona", 131),
   ("celta-de-vigo-vigo", 940),
   ("deportivo-alaves-vitoria-gasteiz", 1108),
   ("elche-elche", 1531),
   ("espanyol-barcelona", 670),
   ("getafe-getafe-madrid", 3709),
   ("girona-girona", 12321),
   ("levante-valencia", 3368),
   ("mallorca-palma-de-mallorca", 237),
   ("osasuna-pamplona", 331),
   ("rayo-vallecano-madrid", 367),
   ("real-betis-sevilla", 150),
   ("real-madrid-madrid", 418),
   ("real-oviedo-oviedo", 2497),
   ("real-sociedad-san-sebastian", 681),
   ("sevilla-sevilla", 368),
   ("valencia-valencia", 1049),
   ("villarreal-villarreal", 1050)]

/-! ### The reconciliation engine -/

/-- Exception-propagating map: builds the list of results of `f`, or `none`
as soon as one application raises.  This is how a Python loop or list
comprehension whose body may raise is modelled. -/
def optMap (f : α → Option β) : List α → Option (List β)
  | [] => some []
  | a :: as =>
    match f a, optMap f as with
    | some b, some bs => some (b :: bs)
    | _, _ => none

/-- Python `round(x, 2)`.  (The source rounds a float; on the exact
rationals of this model it is round-half-up to two decimals.) -/
def round2 (q : ℚ) : ℚ :=
  ((round (q * 100) : ℤ) : ℚ) / 100

/-- Score of one candidate against one user name (source lines 104–112):
the raw `token_sort_ratio` of the accent-stripped full strings, boosted by
25 (capped at 100) when the candidate's normalised first token equals the
user name's and that token occurs exactly once among the club's external
first tokens and exactly once among its user-side first tokens. -/
def candidateScore (all_transfer_firsts all_sheet_firsts : List String)
    (player_first name candidate : String) : Option ℚ :=
  let score := tokenSortScore (remove_accents name) (remove_accents candidate)
  (extract_first_name candidate).map (fun candidate_first =>
    if candidate_first = player_first then
      if all_transfer_firsts.count player_first = 1 ∧
          all_sheet_firsts.count player_first = 1 then
        min (score + 25) 100
      else score
    else score)

/-- Classification and row construction for one user name, given the best
candidate and its score (source lines 117–137).  The second component is
the name added to `matched_tm_names` (`some` exactly when the match is
accepted, i.e. the reported name is non-empty). -/
def buildRow (slug name best0 : String) (score : ℚ) : Row × Option String :=
  let best := if 65 ≤ score then best0 else ""
  let status := if 90 ≤ score then "✅" else if 65 ≤ score then "⚠️" else "❌"
  let type_value :=
    if 90 ≤ score then "match exact"
    else if 65 ≤ score then "match partiel"
    else "non trouvé transfermarkt (parti du club ?)"
  ({ nom_liste := name
     club_liste := slug
     nom_tm := best
     similarite := if best ≠ "" then some (round2 score) else none
     match_valide := if best ≠ "" then status else "❌"
     type_value := type_value },
   if best ≠ "" then some best else none)

/-- Body of the per-user-row loop (source lines 99–137): score every
candidate, pick the best by the stable descending sort, classify. -/
def processUserRow (all_transfer_firsts all_sheet_firsts tm_players : List String)
    (slug name : String) : Option (Row × Option String) :=
  (extract_first_name name).bind (fun player_first =>
    (optMap (fun candidate =>
        (candidateScore all_transfer_firsts all_sheet_firsts player_first name
            candidate).map (fun s => (candidate, s)))
      tm_players).map
      (fun scores =>
        let bp := bestPair scores
        buildRow slug name bp.1 bp.2))

/-- An unclaimed-external ("new player") row (source lines 141–148). -/
def mkNewRow (slug tm_name : String) : Row :=
  { nom_liste := ""
    club_liste := slug
    nom_tm := tm_name
    similarite := none
    match_valide := "🆕"
    type_value := "nouveau joueur à ajouter à ta data sheet" }

/-- The user table's rows for one club, in original order (source line 83). -/
def clubSubset (df : List SheetRow) (slug : String) : List SheetRow :=
  df.filter (fun r => r.team_slug == slug)

/-- Per-club body of the main loop (source lines 83–148), over an explicit
subset: skip the club when its subset or its provider list is empty;
otherwise emit the user-row outcomes in subset order followed by the
never-claimed provider names in provider order. -/
def clubRowsCore (rosters : Nat → List String) (subset : List SheetRow)
    (slug : String) (club_id : Nat) : Option (List Row) :=
  if subset.isEmpty then some []
  else
    let tm_players := rosters club_id
    if tm_players.isEmpty then some []
    else
      match optMap extract_first_name tm_players,
          optMap (fun r => extract_first_name r.player_display_name) subset with
      | some all_transfer_firsts, some all_sheet_firsts =>
        (optMap (fun r =>
            processUserRow all_transfer_firsts all_sheet_firsts tm_players slug
              r.player_display_name) subset).map
          (fun outs =>
            let matched_tm_names := outs.filterMap Prod.snd
            outs.map Prod.fst ++
              (tm_players.filter (fun t => !matched_tm_names.contains t)).map
                (mkNewRow slug))
      | _, _ => none

/-- Per-club rows of the report for a full user table. -/
def clubRows (rosters : Nat → List String) (df : List SheetRow) (slug : String)
    (club_id : Nat) : Option (List Row) :=
  clubRowsCore rosters (clubSubset df slug) slug club_id

/-- `verifier_effectifs` (source lines 77–153): iterate the clubs of the
catalogue in its fixed order, appending each club's rows.  The provider is
abstracted as the pure function `rosters` (club id to fetched name list);
`none` models an uncaught exception aborting the whole analysis. -/
def verifier_effectifs (rosters : Nat → List String) (df0 : List RawRow) :
    Option (List Row) :=
  let df := dropna df0
  CLUB_SLUG_TO_ID.foldl
    (fun acc p => acc.bind (fun rs =>
      (clubRows rosters df p.1 p.2).map (fun nw => rs ++ nw)))
    (some [])

/-! ### The provider client (source lines 51–75) -/

/-- `MAX_RETRIES` (source line 15). -/
def MAX_RETRIES : Nat := 3

/-- Environment of one `fetch_or_load_players` call, recording the outcomes
of its I/O: whether the cache file exists and is under 24h old, the result
of reading and parsing it (attempted at most once), and the outcome of each
live attempt (`some data` for a 200 response whose parse and cache write
succeed, `none` for a non-200 status or a raised-and-caught exception). -/
structure FetchEnv where
  cache_fresh : Bool
  cache_read : Except Unit (List String)
  attempts : List (Option (List String))

/-- The retry loop (source lines 63–75): first successful attempt wins, and
exhausting all attempts returns the empty list, never an error. -/
def attemptsResult : List (Option (List String)) → List String
  | [] => []
  | some data :: _ => data
  | none :: rest => attemptsResult rest

/-- `fetch_or_load_players` (source lines 57–75): a fresh cache is read
directly — the read is outside any `try`, so a cache-read failure
propagates; otherwise up to `MAX_RETRIES` live attempts are made. -/
def fetch_or_load_players (env : FetchEnv) : Except Unit (List String) :=
  if env.cache_fresh then env.cache_read
  else Except.ok (attemptsResult (env.attempts.take MAX_RETRIES))

/-! ### Facts about tokenisation -/

lemma pySplitAux_ne_nil_iff : ∀ (fuel : Nat) (cs : List Char), cs.length ≤ fuel →
    (pySplitAux fuel cs ≠ [] ↔ ∃ c ∈ cs, c.isWhitespace = false) := by
  intro fuel
  induction fuel with
  | zero =>
    intro cs hcs
    have : cs = [] := List.length_eq_zero.mp (Nat.le_zero.mp hcs)
    subst this
    simp [pySplitAux]
  | succ fuel ih =>
    intro cs hcs
    cases cs with
    | nil => simp [pySplitAux]
    | cons c cs =>
      by_cases hc : c.isWhitespace
      · have hlen : cs.length ≤ fuel := Nat.le_of_succ_le_succ hcs
        simp [pySplitAux, hc, ih cs hlen]
      · simp [pySplitAux, hc]

lemma exists_nonws_dropWhile (cs : List Char) :
    (∃ c ∈ cs.dropWhile Char.isWhitespace, c.isWhitespace = false) ↔
      ∃ c ∈ cs, c.isWhitespace = false := by
  induction cs with
  | nil => simp
  | cons c cs ih =>
    by_cases hc : c.isWhitespace
    · simp [List.dropWhile_cons, hc, ih]
    · simp [List.dropWhile_cons, hc]

lemma exists_nonws_reverse (l : List Char) :
    (∃ c ∈ l.reverse, c.isWhitespace = false) ↔
      ∃ c ∈ l, c.isWhitespace = false := by
  simp [List.mem_reverse]

lemma exists_nonws_pyStrip (cs : List Char) :
    (∃ c ∈ pyStripChars cs, c.isWhitespace = false) ↔
      ∃ c ∈ cs, c.isWhitespace = false := by
  unfold pyStripChars
  rw [exists_nonws_reverse, exists_nonws_dropWhile, exists_nonws_reverse,
    exists_nonws_dropWhile]

/-- C1 (amended): `extract_first_name` is deterministic (it is a pure
function) and returns a first token exactly when the input contains at
least one non-whitespace character; on empty or whitespace-only input the
`split()[0]` of the source raises `IndexError` (modelled: `none`) rather
than returning an empty token. -/
theorem C1_extract_first_name_domain (s : String) :
    (extract_first_name s).isSome ↔ ∃ c ∈ s.data, c.isWhitespace = false := by
  rw [← exists_nonws_pyStrip s.data,
    ← pySplitAux_ne_nil_iff (pyStripChars s.data).length (pyStripChars s.data)
      (Nat.le_refl _)]
  unfold extract_first_name pySplitChars
  cases hc : pySplitAux (pyStripChars s.data).length (pyStripChars s.data) <;>
    simp [hc]

/-- C1 counterexample: the claim says `extract_first_name` is total with an
empty name yielding an empty first token; in fact both the empty string and
a whitespace-only string take the error path. -/
theorem C1_counterexample :
    extract_first_name "" = none ∧ extract_first_name "   " = none :=
  ⟨rfl, rfl⟩

/-- Witness for C1's amended theorem at a concrete accented input. -/
theorem C1_witness :
    (∃ c ∈ ("José García").data, c.isWhitespace = false) ∧
      (extract_first_name "José García").isSome := by
  refine ⟨by decide, ?_⟩
  rw [C1_extract_first_name_domain "José García"]
  decide

/-! ### Facts about the similarity metric -/

lemma indelAux_self : ∀ (fuel : Nat) (xs : List Char), xs.length ≤ fuel →
    indelAux fuel xs xs = 0 := by
  intro fuel
  induction fuel with
  | zero =>
    intro xs hxs
    have : xs = [] := List.length_eq_zero.mp (Nat.le_zero.mp hxs)
    subst this
    rfl
  | succ fuel ih =>
    intro xs hxs
    cases xs with
    | nil => rfl
    | cons x xs =>
      have hlen : xs.length ≤ fuel := Nat.le_of_succ_le_succ hxs
      simp [indelAux, ih xs hlen]

lemma indelAux_symm : ∀ (fuel : Nat) (xs ys : List Char),
    xs.length + ys.length ≤ fuel → indelAux fuel xs ys = indelAux fuel ys xs := by
  intro fuel
  induction fuel with
  | zero => intro xs ys _; simp [indelAux, Nat.add_comm]
  | succ fuel ih =>
    intro xs ys hlen
    cases xs with
    | nil => cases ys <;> rfl
    | cons x xs =>
      cases ys with
      | nil => rfl
      | cons y ys =>
        simp only [List.length_cons] at hlen
        by_cases hxy : x = y
        · subst hxy
          simp only [indelAux, if_pos rfl]
          exact ih xs ys (by omega)
        · simp only [indelAux, if_neg hxy, if_neg (Ne.symm hxy)]
          rw [ih xs (y :: ys) (by simp; omega), ih (x :: xs) ys (by simp; omega),
            Nat.min_comm]

lemma indelDist_symm (xs ys : List Char) : indelDist xs ys = indelDist ys xs := by
  unfold indelDist
  rw [Nat.add_comm ys.length xs.length]
  exact indelAux_symm _ xs ys (Nat.le_refl _)

lemma indelDist_self (xs : List Char) : indelDist xs xs = 0 :=
  indelAux_self _ xs (by omega)

lemma fuzzScore_symm (a b : List Char) : fuzzScore a b = fuzzScore b a := by
  unfold fuzzScore
  rw [indelDist_symm, Nat.add_comm a.length b.length]

lemma fuzzScore_self (a : List Char) : fuzzScore a a = 100 := by
  unfold fuzzScore
  by_cases h : a.length + a.length = 0
  · simp [h]
  · have hQ : ((a.length + a.length : Nat) : ℚ) ≠ 0 := by
      exact_mod_cast h
    simp only [h, if_neg h, indelDist_self, Nat.cast_zero, sub_zero]
    have h2 : ((a.length : ℚ) + (a.length : ℚ)) ≠ 0 := by push_cast at hQ; exact hQ
    simp [mul_div_assoc, div_self h2]

/-- C8: the similarity metric used for scoring (`token_sort_ratio`) is
symmetric, and the self-similarity of any accent-stripped name is exactly
100. -/
theorem C8_metric_symm_self :
    (∀ x y : String, tokenSortScore x y = tokenSortScore y x) ∧
      (∀ x : String,
        tokenSortScore (remove_accents x) (remove_accents x) = 100) :=
  ⟨fun _x _y => fuzzScore_symm _ _, fun _x => fuzzScore_self _⟩

/-! ### Facts about `optMap` -/

lemma optMap_length {f : α → Option β} : ∀ {l : List α} {l' : List β},
    optMap f l = some l' → l'.length = l.length := by
  intro l
  induction l with
  | nil => intro l' h; simp [optMap] at h; simp [← h]
  | cons a as ih =>
    intro l' h
    cases hfa : f a with
    | none => simp [optMap, hfa] at h
    | some b =>
      cases hrest : optMap f as with
      | none => simp [optMap, hfa, hrest] at h
      | some bs =>
        simp [optMap, hfa, hrest] at h
        subst h
        simp [ih hrest]

lemma optMap_forall {f : α → Option β} : ∀ {l : List α} {l' : List β},
    optMap f l = some l' → ∀ a ∈ l, ∃ b, f a = some b := by
  intro l
  induction l with
  | nil => intro l' _ a ha; cases ha
  | cons a as ih =>
    intro l' h c hc
    cases hfa : f a with
    | none => simp [optMap, hfa] at h
    | some b =>
      cases hrest : optMap f as with
      | none => simp [optMap, hfa, hrest] at h
      | some bs =>
        rcases List.mem_cons.mp hc with rfl | hc
        · exact ⟨b, hfa⟩
        · exact ih hrest c hc

lemma optMap_mem {f : α → Option β} : ∀ {l : List α} {l' : List β},
    optMap f l = some l' → ∀ b ∈ l', ∃ a ∈ l, f a = some b := by
  intro l
  induction l with
  | nil =>
    intro l' h b hb
    simp [optMap] at h
    subst h
    cases hb
  | cons a as ih =>
    intro l' h c hc
    cases hfa : f a with
    | none => simp [optMap, hfa] at h
    | some b =>
      cases hrest : optMap f as with
      | none => simp [optMap, hfa, hrest] at h
      | some bs =>
        simp [optMap, hfa, hrest] at h
        subst h
        rcases List.mem_cons.mp hc with rfl | hc
        · exact ⟨a, List.mem_cons_self a as, hfa⟩
        · obtain ⟨a', ha', hfa'⟩ := ih hrest c hc
          exact ⟨a', List.mem_cons_of_mem a ha', hfa'⟩

lemma optMap_map {f : α → Option β} (g : β → γ) (h : α → γ) :
    ∀ {l : List α} {l' : List β}, optMap f l = some l' →
      (∀ a b, f a = some b → g b = h a) → l'.map g = l.map h := by
  intro l
  induction l with
  | nil => intro l' hl _; simp [optMap] at hl; simp [← hl]
  | cons a as ih =>
    intro l' hl hgh
    cases hfa : f a with
    | none => simp [optMap, hfa] at hl
    | some b =>
      cases hrest : optMap f as with
      | none => simp [optMap, hfa, hrest] at hl
      | some bs =>
        simp [optMap, hfa, hrest] at hl
        subst hl
        simp [hgh a b hfa, ih hrest hgh]

lemma optMap_congr {f g : α → Option β} : ∀ {l : List α},
    (∀ a ∈ l, f a = g a) → optMap f l = optMap g l := by
  intro l
  induction l with
  | nil => intro _; rfl
  | cons a as ih =>
    intro hfg
    have ha := hfg a (List.mem_cons_self a as)
    have hrest := ih (fun x hx => hfg x (List.mem_cons_of_mem a hx))
    simp [optMap, ha, hrest]

/-! ### Facts about best-candidate selection -/

lemma insertDesc_perm (p : String × ℚ) : ∀ l : List (String × ℚ),
    List.Perm (insertDesc p l) (p :: l) := by
  intro l
  induction l with
  | nil => simp [insertDesc]
  | cons q qs ih =>
    by_cases hlt : p.2 < q.2
    · simp only [insertDesc, if_pos hlt]
      exact ((ih.cons q).trans (List.Perm.swap p q qs))
    · simp [insertDesc, if_neg hlt]

lemma sortDesc_perm (l : List (String × ℚ)) : List.Perm (sortDesc l) l := by
  induction l with
  | nil => simp [sortDesc]
  | cons p l ih =>
    exact (insertDesc_perm p (sortDesc l)).trans (ih.cons p)

lemma sortDesc_eq_nil_iff {l : List (String × ℚ)} : sortDesc l = [] ↔ l = [] := by
  constructor
  · intro h
    have := sortDesc_perm l
    rw [h] at this
    exact (this.nil_eq).symm
  · intro h; subst h; rfl

lemma bestPair_mem {l : List (String × ℚ)} (h : l ≠ []) : bestPair l ∈ l := by
  have hs : sortDesc l ≠ [] := fun hc => h (sortDesc_eq_nil_iff.mp hc)
  cases hq : sortDesc l with
  | nil => exact absurd hq hs
  | cons q qs =>
    have hmem : q ∈ sortDesc l := by rw [hq]; exact List.mem_cons_self q qs
    have : bestPair l = q := by unfold bestPair; rw [hq]; rfl
    rw [this]
    exact (sortDesc_perm l).mem_iff.mp hmem

lemma bestPair_cons (p : String × ℚ) (l : List (String × ℚ)) (h : l ≠ []) :
    bestPair (p :: l) = if p.2 < (bestPair l).2 then bestPair l else p := by
  have hs : sortDesc l ≠ [] := fun hc => h (sortDesc_eq_nil_iff.mp hc)
  cases hq : sortDesc l with
  | nil => exact absurd hq hs
  | cons q qs =>
    have hb : bestPair l = q := by unfold bestPair; rw [hq]; rfl
    have hstep : sortDesc (p :: l) = insertDesc p (q :: qs) := by
      unfold sortDesc
      simp only [List.foldr_cons]
      rw [show List.foldr insertDesc [] l = sortDesc l from rfl, hq]
    have h1 : bestPair (p :: l) = (insertDesc p (q :: qs)).headD ("", 0) := by
      unfold bestPair
      rw [hstep]
    rw [h1, hb]
    by_cases hlt : p.2 < q.2
    · simp only [insertDesc, if_pos hlt]
      rfl
    · simp only [insertDesc, if_neg hlt]
      rfl

lemma bestPair_spec (l : List (String × ℚ)) (h : l ≠ []) :
    ∃ i, ∃ hi : i < l.length,
      bestPair l = l.get ⟨i, hi⟩ ∧
      (∀ j (hj : j < l.length), (l.get ⟨j, hj⟩).2 ≤ (bestPair l).2) ∧
      (∀ j (hj : j < l.length), j < i → (l.get ⟨j, hj⟩).2 < (bestPair l).2) := by
  induction l with
  | nil => exact absurd rfl h
  | cons p l ih =>
    cases hl : l with
    | nil =>
      refine ⟨0, by simp, ?_, ?_, ?_⟩
      · rfl
      · intro j hj
        have hj0 : j = 0 := by simpa using hj
        subst hj0
        exact le_refl _
      · intro j hj hj0
        omega
    | cons q qs =>
      have hlne : l ≠ [] := by rw [hl]; exact List.cons_ne_nil q qs
      rw [← hl]
      obtain ⟨i', hi', heq, hmax, hstrict⟩ := ih hlne
      rw [bestPair_cons p l hlne]
      by_cases hlt : p.2 < (bestPair l).2
      · rw [if_pos hlt]
        refine ⟨i' + 1, by simp; omega, ?_, ?_, ?_⟩
        · simpa using heq
        · intro j hj
          cases j with
          | zero => exact le_of_lt hlt
          | succ j => exact hmax j (by simpa using hj)
        · intro j hj hji
          cases j with
          | zero => exact hlt
          | succ j => exact hstrict j (by simpa using hj) (by omega)
      · rw [if_neg hlt]
        refine ⟨0, by simp, rfl, ?_, ?_⟩
        · intro j hj
          cases j with
          | zero => exact le_refl _
          | succ j =>
            exact le_trans (hmax j (by simpa using hj)) (not_lt.mp hlt)
        · intro j hj hj0
          omega

/-- C6: the selected candidate (stable descending sort then head) is one
with the maximum score, and among equal maxima the one occurring first in
provider-list order wins: there is an index `i` holding the selected pair
such that every score is at most the selected one and every earlier index
scores strictly less. -/
theorem C6_bestPair_argmax (l : List (String × ℚ)) (h : l ≠ []) :
    ∃ i, ∃ hi : i < l.length,
      bestPair l = l.get ⟨i, hi⟩ ∧
      (∀ j (hj : j < l.length), (l.get ⟨j, hj⟩).2 ≤ (bestPair l).2) ∧
      (∀ j (hj : j < l.length), j < i → (l.get ⟨j, hj⟩).2 < (bestPair l).2) :=
  bestPair_spec l h

/-- Witness for C6 at a concrete score list with a tied maximum: the first
of the two tied candidates is selected. -/
theorem C6_witness :
    ((([("a", 50), ("b", 80), ("c", 80)] : List (String × ℚ)) ≠ []) ∧
      ∃ i, ∃ hi : i < ([("a", 50), ("b", 80), ("c", 80)] : List (String × ℚ)).length,
        bestPair [("a", 50), ("b", 80), ("c", 80)] =
          ([("a", 50), ("b", 80), ("c", 80)] : List (String × ℚ)).get ⟨i, hi⟩ ∧
        (∀ j (hj : j < ([("a", 50), ("b", 80), ("c", 80)] : List (String × ℚ)).length),
          (([("a", 50), ("b", 80), ("c", 80)] : List (String × ℚ)).get ⟨j, hj⟩).2 ≤
            (bestPair [("a", 50), ("b", 80), ("c", 80)]).2) ∧
        (∀ j (hj : j < ([("a", 50), ("b", 80), ("c", 80)] : List (String × ℚ)).length),
          j < i →
          (([("a", 50), ("b", 80), ("c", 80)] : List (String × ℚ)).get ⟨j, hj⟩).2 <
            (bestPair [("a", 50), ("b", 80), ("c", 80)]).2)) :=
  ⟨by decide, C6_bestPair_argmax [("a", 50), ("b", 80), ("c", 80)] (by decide)⟩

/-! ### The boost rule and the classification thresholds -/

/-- C4: with `pf` the user name's normalised first token and `cf` the
candidate's, the raw `token_sort_ratio` score is raised by 25 points capped
at 100 exactly when `cf = pf` and that token occurs exactly once among the
club's external first tokens and exactly once among its user-side first
tokens; otherwise the raw score is used unchanged. -/
theorem C4_boost_rule (all_transfer_firsts all_sheet_firsts : List String)
    (name candidate pf cf : String)
    (hn : extract_first_name name = some pf)
    (hc : extract_first_name candidate = some cf) :
    (cf = pf ∧ all_transfer_firsts.count pf = 1 ∧ all_sheet_firsts.count pf = 1 →
      candidateScore all_transfer_firsts all_sheet_firsts pf name candidate =
        some (min (tokenSortScore (remove_accents name) (remove_accents candidate)
          + 25) 100)) ∧
    (¬(cf = pf ∧ all_transfer_firsts.count pf = 1 ∧ all_sheet_firsts.count pf = 1) →
      candidateScore all_transfer_firsts all_sheet_firsts pf name candidate =
        some (tokenSortScore (remove_accents name) (remove_accents candidate))) := by
  constructor
  · rintro ⟨hcf, h1, h2⟩
    subst hcf
    simp [candidateScore, hc, h1, h2]
  · intro hnot
    by_cases hcf : cf = pf
    · subst hcf
      have : ¬(all_transfer_firsts.count cf = 1 ∧ all_sheet_firsts.count cf = 1) :=
        fun hcnt => hnot ⟨rfl, hcnt⟩
      simp [candidateScore, hc, this]
    · simp [candidateScore, hc, hcf]

/-- Witness for C4: the boost fires on a unique shared first token
("Jon Smith" against "Jon Garcia"), and not when the provider side has the
first token twice. -/
theorem C4_witness :
    (extract_first_name "Jon Smith" = some "jon" ∧
      extract_first_name "Jon Garcia" = some "jon" ∧
      ("jon" = "jon" ∧ (["jon", "pedro"] : List String).count "jon" = 1 ∧
        (["jon"] : List String).count "jon" = 1) ∧
      candidateScore ["jon", "pedro"] ["jon"] "jon" "Jon Smith" "Jon Garcia" =
        some (min (tokenSortScore (remove_accents "Jon Smith")
          (remove_accents "Jon Garcia") + 25) 100)) ∧
    (¬("jon" = "jon" ∧ (["jon", "jon"] : List String).count "jon" = 1 ∧
        (["jon"] : List String).count "jon" = 1) ∧
      candidateScore ["jon", "jon"] ["jon"] "jon" "Jon Smith" "Jon Garcia" =
        some (tokenSortScore (remove_accents "Jon Smith")
          (remove_accents "Jon Garcia"))) := by
  refine ⟨⟨by decide, by decide, by decide, ?_⟩, by decide, ?_⟩
  · exact (C4_boost_rule ["jon", "pedro"] ["jon"] "Jon Smith" "Jon Garcia" "jon"
      "jon" (by decide) (by decide)).1 (by decide)
  · exact (C4_boost_rule ["jon", "jon"] ["jon"] "Jon Smith" "Jon Garcia" "jon"
      "jon" (by decide) (by decide)).2 (by decide)

/-- C5: classification on the best score is closed and exhaustive, given a
non-empty best candidate (every provider name has a first token when the
engine runs, hence is non-empty): at least 90 gives the "exact" class with
the match accepted (non-empty reported name, "✅"); in [65, 90) the
"partial" class with the match accepted ("⚠️"); below 65 the match is
rejected: empty reported name, "❌", "not found" class. -/
theorem C5_thresholds (slug name best0 : String) (score : ℚ)
    (hb : best0 ≠ "") :
    (90 ≤ score →
      (buildRow slug name best0 score).1.nom_tm = best0 ∧
      (buildRow slug name best0 score).1.match_valide = "✅" ∧
      (buildRow slug name best0 score).1.type_value = "match exact") ∧
    (65 ≤ score → score < 90 →
      (buildRow slug name best0 score).1.nom_tm = best0 ∧
      (buildRow slug name best0 score).1.match_valide = "⚠️" ∧
      (buildRow slug name best0 score).1.type_value = "match partiel") ∧
    (score < 65 →
      (buildRow slug name best0 score).1.nom_tm = "" ∧
      (buildRow slug name best0 score).1.match_valide = "❌" ∧
      (buildRow slug name best0 score).1.type_value =
        "non trouvé transfermarkt (parti du club ?)") := by
  refine ⟨?_, ?_, ?_⟩
  · intro h90
    have h65 : 65 ≤ score := le_trans (by norm_num) h90
    simp [buildRow, h65, h90, hb]
  · intro h65 h90
    have h90' : ¬90 ≤ score := not_le.mpr h90
    simp [buildRow, h65, h90', hb]
  · intro h65
    have h65' : ¬65 ≤ score := not_le.mpr h65
    have h90' : ¬90 ≤ score := fun h => h65' (le_trans (by norm_num) h)
    simp [buildRow, h65', h90']

/-- Witness for C5 at the three boundary scores 90, 65 and 64. -/
theorem C5_witness :
    (("Best" : String) ≠ "" ∧
      (buildRow "club" "user" "Best" 90).1.nom_tm = "Best" ∧
      (buildRow "club" "user" "Best" 90).1.match_valide = "✅" ∧
      (buildRow "club" "user" "Best" 90).1.type_value = "match exact") ∧
    ((buildRow "club" "user" "Best" 65).1.nom_tm = "Best" ∧
      (buildRow "club" "user" "Best" 65).1.match_valide = "⚠️" ∧
      (buildRow "club" "user" "Best" 65).1.type_value = "match partiel") ∧
    ((buildRow "club" "user" "Best" 64).1.nom_tm = "" ∧
      (buildRow "club" "user" "Best" 64).1.match_valide = "❌" ∧
      (buildRow "club" "user" "Best" 64).1.type_value =
        "non trouvé transfermarkt (parti du club ?)") := by
  have hb : ("Best" : String) ≠ "" := by decide
  refine ⟨⟨hb, (C5_thresholds "club" "user" "Best" 90 hb).1 (by norm_num)⟩,
    (C5_thresholds "club" "user" "Best" 65 hb).2.1 (by norm_num) (by norm_num),
    (C5_thresholds "club" "user" "Best" 64 hb).2.2 (by norm_num)⟩

/-! ### Structure of the per-club output -/

lemma buildRow_not_new (slug name best0 : String) (score : ℚ) :
    (buildRow slug name best0 score).1.match_valide ≠ "🆕" := by
  simp only [buildRow]
  split_ifs <;> decide

lemma buildRow_nom_liste (slug name best0 : String) (score : ℚ) :
    (buildRow slug name best0 score).1.nom_liste = name := by
  simp only [buildRow]

lemma buildRow_club_liste (slug name best0 : String) (score : ℚ) :
    (buildRow slug name best0 score).1.club_liste = slug := by
  simp only [buildRow]

lemma buildRow_claim (slug name best0 : String) (score : ℚ) :
    ((buildRow slug name best0 score).1.nom_tm = "" ∧
      (buildRow slug name best0 score).2 = none) ∨
    ((buildRow slug name best0 score).2 =
        some ((buildRow slug name best0 score).1.nom_tm) ∧
      (buildRow slug name best0 score).1.nom_tm = best0 ∧
      (buildRow slug name best0 score).1.nom_tm ≠ "") := by
  simp only [buildRow]
  by_cases h65 : 65 ≤ score
  · by_cases hb : best0 = ""
    · subst hb
      simp [h65]
    · right
      simp [h65, hb]
  · left
    simp [h65]

lemma mkNewRow_new (slug t : String) : (mkNewRow slug t).match_valide = "🆕" := rfl

lemma mkNewRow_nom_tm (slug t : String) : (mkNewRow slug t).nom_tm = t := rfl

lemma mkNewRow_club (slug t : String) : (mkNewRow slug t).club_liste = slug := rfl

lemma extract_first_name_ne_empty {t f : String}
    (h : extract_first_name t = some f) : t ≠ "" := by
  intro he
  subst he
  exact Option.noConfusion h

/-- What one successful `processUserRow` call guarantees about its row and
its `matched_tm_names` contribution. -/
lemma processUserRow_spec {allT allS tm : List String} {slug name : String}
    {o : Row × Option String}
    (h : processUserRow allT allS tm slug name = some o) :
    o.1.match_valide ≠ "🆕" ∧ o.1.nom_liste = name ∧ o.1.club_liste = slug ∧
      ((o.1.nom_tm = "" ∧ o.2 = none) ∨
        (o.2 = some o.1.nom_tm ∧ o.1.nom_tm ∈ tm ∧ o.1.nom_tm ≠ "")) := by
  unfold processUserRow at h
  cases hpf : extract_first_name name with
  | none => rw [hpf] at h; exact Option.noConfusion h
  | some pf =>
    rw [hpf] at h
    simp only [Option.some_bind] at h
    rcases Option.map_eq_some'.mp h with ⟨scores, hsc, ho⟩
    have ho' : buildRow slug name (bestPair scores).1 (bestPair scores).2 = o := ho
    subst ho'
    refine ⟨buildRow_not_new _ _ _ _, buildRow_nom_liste _ _ _ _,
      buildRow_club_liste _ _ _ _, ?_⟩
    rcases buildRow_claim slug name (bestPair scores).1 (bestPair scores).2 with
      hl | ⟨hm, hbest, hne⟩
    · exact Or.inl hl
    · refine Or.inr ⟨hm, ?_, hne⟩
      rw [hbest] at hne ⊢
      have hscne : scores ≠ [] := by
        intro hnil
        rw [hnil] at hne
        exact hne rfl
      obtain ⟨c, hc, hfc⟩ := optMap_mem hsc _ (bestPair_mem hscne)
      rcases Option.map_eq_some'.mp hfc with ⟨s, _, hcs⟩
      have : c = (bestPair scores).1 := congrArg Prod.fst hcs
      rwa [← this]

/-- Case analysis of one successful per-club run. -/
lemma clubRowsCore_eq_some {rosters : Nat → List String} {subset : List SheetRow}
    {slug : String} {club_id : Nat} {l : List Row}
    (h : clubRowsCore rosters subset slug club_id = some l) :
    (subset = [] ∧ l = []) ∨
    (rosters club_id = [] ∧ l = []) ∨
    (∃ allT allS outs,
      optMap extract_first_name (rosters club_id) = some allT ∧
      optMap (fun r => extract_first_name r.player_display_name) subset = some allS ∧
      optMap (fun r => processUserRow allT allS (rosters club_id) slug
        r.player_display_name) subset = some outs ∧
      l = outs.map Prod.fst ++
        ((rosters club_id).filter
          (fun t => !(outs.filterMap Prod.snd).contains t)).map (mkNewRow slug)) := by
  unfold clubRowsCore at h
  by_cases h1 : subset.isEmpty
  · rw [if_pos h1] at h
    exact Or.inl ⟨List.isEmpty_iff.mp h1, (Option.some.inj h).symm⟩
  · rw [if_neg h1] at h
    simp only at h
    by_cases h2 : (rosters club_id).isEmpty
    · rw [if_pos h2] at h
      exact Or.inr (Or.inl ⟨List.isEmpty_iff.mp h2, (Option.some.inj h).symm⟩)
    · rw [if_neg h2] at h
      cases hT : optMap extract_first_name (rosters club_id) with
      | none => rw [hT] at h; exact Option.noConfusion h
      | some allT =>
        cases hS : optMap (fun r => extract_first_name r.player_display_name) subset with
        | none => rw [hT, hS] at h; exact Option.noConfusion h
        | some allS =>
          rw [hT, hS] at h
          simp only at h
          rcases Option.map_eq_some'.mp h with ⟨outs, houts, hl⟩
          exact Or.inr (Or.inr ⟨allT, allS, outs, rfl, rfl, houts, hl.symm⟩)

lemma contains_iff_mem {l : List String} {a : String} :
    l.contains a = true ↔ a ∈ l := by
  simp [List.contains]

/-- C2 (amended): the engine performs no claim-deduplication, so an external
name can be the accepted target of several user rows (see the
counterexample); what does hold within one club's run is that every
accepted match target comes from the club's provider list and that a
claimed external name is never also reported as a "new player" row. -/
theorem C2_claimed_names (rosters : Nat → List String) (subset : List SheetRow)
    (slug : String) (club_id : Nat) (l : List Row)
    (h : clubRowsCore rosters subset slug club_id = some l)
    (r : Row) (hr : r ∈ l) (hnew : r.match_valide ≠ "🆕") (hne : r.nom_tm ≠ "") :
    r.nom_tm ∈ rosters club_id ∧
      ∀ r2 ∈ l, r2.match_valide = "🆕" → r2.nom_tm ≠ r.nom_tm := by
  rcases clubRowsCore_eq_some h with ⟨_, hl⟩ | ⟨_, hl⟩ |
    ⟨allT, allS, outs, hT, hS, houts, hl⟩
  · subst hl; cases hr
  · subst hl; cases hr
  · subst hl
    rcases List.mem_append.mp hr with hru | hrn
    · obtain ⟨o, ho, hfo⟩ := List.mem_map.mp hru
      subst hfo
      obtain ⟨srow, hsrow, hpo⟩ := optMap_mem houts o ho
      obtain ⟨-, -, -, hdisj⟩ := processUserRow_spec hpo
      rcases hdisj with ⟨hemp, -⟩ | ⟨hm, hmem, -⟩
      · exact absurd hemp hne
      · refine ⟨hmem, ?_⟩
        intro r2 hr2 hr2new
        rcases List.mem_append.mp hr2 with hr2u | hr2n
        · obtain ⟨o2, ho2, hfo2⟩ := List.mem_map.mp hr2u
          obtain ⟨srow2, hsrow2, hpo2⟩ := optMap_mem houts o2 ho2
          obtain ⟨hnn2, -, -, -⟩ := processUserRow_spec hpo2
          rw [hfo2] at hnn2
          exact absurd hr2new hnn2
        · obtain ⟨t, htf, hmk⟩ := List.mem_map.mp hr2n
          obtain ⟨htm, hpred⟩ := List.mem_filter.mp htf
          rw [← hmk, mkNewRow_nom_tm]
          intro heq
          have : t ∈ outs.filterMap Prod.snd := by
            rw [heq]
            exact List.mem_filterMap.mpr ⟨o, ho, hm⟩
          rw [Bool.not_eq_eq_eq_not, Bool.not_true] at hpred
          rw [← contains_iff_mem] at this
          rw [hpred] at this
          exact Bool.noConfusion this
    · obtain ⟨t, _, hmk⟩ := List.mem_map.mp hrn
      rw [← hmk, mkNewRow_new] at hnew
      exact absurd rfl hnew

/-- C2 counterexample: user rows "Carlos" and "Karlos" against the provider
list `["Carlos"]` — both rows are accepted with target "Carlos", so one
external name is claimed as best match by two user names. -/
theorem C2_counterexample :
    ((clubRowsCore (fun _ => ["Carlos"]) [⟨"Carlos", "x"⟩, ⟨"Karlos", "x"⟩]
        "x" 0).getD []).countP
      (fun r => !(r.match_valide == "🆕") && (r.nom_tm == "Carlos")) = 2 := by
  decide

/-- Witness for C2's amended theorem on a concrete club run. -/
theorem C2_witness :
    clubRowsCore (fun _ => ["Leo", "Ana"]) [⟨"Leo", "club"⟩] "club" 0 =
      some [⟨"Leo", "club", "Leo", some 100, "✅", "match exact"⟩,
        ⟨"", "club", "Ana", none, "🆕", "nouveau joueur à ajouter à ta data sheet"⟩] ∧
    (⟨"Leo", "club", "Leo", some 100, "✅", "match exact"⟩ : Row) ∈
      ([⟨"Leo", "club", "Leo", some 100, "✅", "match exact"⟩,
        ⟨"", "club", "Ana", none, "🆕", "nouveau joueur à ajouter à ta data sheet"⟩] :
        List Row) ∧
    ("Leo" : String) ∈ ["Leo", "Ana"] ∧
    ∀ r2 ∈ ([⟨"Leo", "club", "Leo", some 100, "✅", "match exact"⟩,
        ⟨"", "club", "Ana", none, "🆕", "nouveau joueur à ajouter à ta data sheet"⟩] :
        List Row), r2.match_valide = "🆕" → r2.nom_tm ≠ "Leo" := by
  have h := C2_claimed_names (fun _ => ["Leo", "Ana"]) [⟨"Leo", "club"⟩] "club" 0
    [⟨"Leo", "club", "Leo", some 100, "✅", "match exact"⟩,
      ⟨"", "club", "Ana", none, "🆕", "nouveau joueur à ajouter à ta data sheet"⟩]
    (by decide) ⟨"Leo", "club", "Leo", some 100, "✅", "match exact"⟩
    (by decide) (by decide) (by decide)
  exact ⟨by decide, by decide, h.1, h.2⟩

lemma countP_newRows_new (slug t : String) (tm matched : List String) :
    ((tm.filter (fun u => !matched.contains u)).map (mkNewRow slug)).countP
      (fun r => (r.match_valide == "🆕") && (r.nom_tm == t)) =
    if t ∈ matched then 0 else tm.count t := by
  rw [List.countP_map, List.countP_filter]
  by_cases hmem : t ∈ matched
  · rw [if_pos hmem, List.countP_eq_zero]
    intro u _
    by_cases hut : u = t
    · subst hut
      simp [mkNewRow, Function.comp, hmem]
    · simp [mkNewRow, Function.comp, hut]
  · rw [if_neg hmem, List.count_eq_countP]
    apply List.countP_congr
    intro u _
    by_cases hut : u = t
    · subst hut
      simp [mkNewRow, Function.comp, hmem]
    · simp [mkNewRow, Function.comp, hut]

lemma countP_newRows_acc (slug t : String) (tm matched : List String) :
    ((tm.filter (fun u => !matched.contains u)).map (mkNewRow slug)).countP
      (fun r => !(r.match_valide == "🆕") && (r.nom_tm == t)) = 0 := by
  rw [List.countP_map, List.countP_eq_zero]
  intro u _
  simp [mkNewRow, Function.comp]

/-- C3 (amended): in a club whose reconciliation runs, every external name
is reported, but "exactly once" fails in general (see the counterexample):
a claimed name is the target of one or more accepted rows and of no
"new player" row, while an unclaimed name yields one "new player" row per
occurrence in the provider list (so duplicates are reported once each). -/
theorem C3_external_reported (rosters : Nat → List String) (subset : List SheetRow)
    (slug : String) (club_id : Nat) (l : List Row)
    (h : clubRowsCore rosters subset slug club_id = some l)
    (hsub : subset ≠ []) (t : String) (ht : t ∈ rosters club_id) :
    (0 < l.countP (fun r => !(r.match_valide == "🆕") && (r.nom_tm == t)) ∧
      l.countP (fun r => (r.match_valide == "🆕") && (r.nom_tm == t)) = 0) ∨
    (l.countP (fun r => !(r.match_valide == "🆕") && (r.nom_tm == t)) = 0 ∧
      l.countP (fun r => (r.match_valide == "🆕") && (r.nom_tm == t)) =
        (rosters club_id).count t ∧
      0 < (rosters club_id).count t) := by
  rcases clubRowsCore_eq_some h with ⟨hs, _⟩ | ⟨hros, _⟩ |
    ⟨allT, allS, outs, hT, hS, houts, hl⟩
  · exact absurd hs hsub
  · rw [hros] at ht; cases ht
  · subst hl
    have htne : t ≠ "" := by
      obtain ⟨f, hf⟩ := optMap_forall hT t ht
      exact extract_first_name_ne_empty hf
    have huserNew : (outs.map Prod.fst).countP
        (fun r => (r.match_valide == "🆕") && (r.nom_tm == t)) = 0 := by
      rw [List.countP_map, List.countP_eq_zero]
      intro o ho
      obtain ⟨srow, hsrow, hpo⟩ := optMap_mem houts o ho
      obtain ⟨hnn, -, -, -⟩ := processUserRow_spec hpo
      simp [Function.comp, hnn]
    rw [List.countP_append, List.countP_append, huserNew,
      countP_newRows_new slug t (rosters club_id) (outs.filterMap Prod.snd),
      countP_newRows_acc slug t (rosters club_id) (outs.filterMap Prod.snd)]
    by_cases hmem : t ∈ outs.filterMap Prod.snd
    · left
      rw [if_pos hmem]
      refine ⟨?_, by omega⟩
      obtain ⟨o, ho, hsnd⟩ := List.mem_filterMap.mp hmem
      have hpos : 0 < (outs.map Prod.fst).countP
          (fun r => !(r.match_valide == "🆕") && (r.nom_tm == t)) := by
        rw [List.countP_map]
        rw [List.countP_pos_iff]
        refine ⟨o, ho, ?_⟩
        obtain ⟨hnn, -, -, hdisj⟩ := processUserRow_spec
          (optMap_mem houts o ho).choose_spec.2
        rcases hdisj with ⟨-, hnone⟩ | ⟨hsome, -, -⟩
        · rw [hnone] at hsnd; exact Option.noConfusion hsnd
        · rw [hsome] at hsnd
          have : o.1.nom_tm = t := Option.some.inj hsnd
          simp [Function.comp, hnn, this]
      omega
    · right
      rw [if_neg hmem]
      have huserAcc : (outs.map Prod.fst).countP
          (fun r => !(r.match_valide == "🆕") && (r.nom_tm == t)) = 0 := by
        rw [List.countP_map, List.countP_eq_zero]
        intro o ho
        obtain ⟨srow, hsrow, hpo⟩ := optMap_mem houts o ho
        obtain ⟨hnn, -, -, hdisj⟩ := processUserRow_spec hpo
        have hnomne : o.1.nom_tm ≠ t := by
          intro heq
          rcases hdisj with ⟨hemp, -⟩ | ⟨hsome, -, -⟩
          · rw [heq] at hemp; exact htne hemp
          · rw [heq] at hsome
            exact hmem (List.mem_filterMap.mpr ⟨o, ho, hsome⟩)
        simp [Function.comp, hnomne]
      rw [huserAcc]
      refine ⟨by omega, by omega, List.count_pos_iff.mpr ht⟩

/-- C3 counterexample: duplicated provider name "Ana", never claimed: it is
reported twice (once per occurrence), not exactly once. -/
theorem C3_counterexample :
    ((clubRowsCore (fun _ => ["Ana", "Ana"]) [⟨"Zed", "x"⟩] "x" 0).getD
      []).countP (fun r => (r.match_valide == "🆕") && (r.nom_tm == "Ana")) = 2 := by
  decide

/-- Witness for C3's amended theorem: "Leo" is claimed (first disjunct) and
"Ana" is unclaimed, reported once (second disjunct), on a concrete run. -/
theorem C3_witness :
    (clubRowsCore (fun _ => ["Leo", "Ana"]) [⟨"Leo", "clb"⟩] "clb" 0 =
        some [⟨"Leo", "clb", "Leo", some 100, "✅", "match exact"⟩,
          ⟨"", "clb", "Ana", none, "🆕", "nouveau joueur à ajouter à ta data sheet"⟩] ∧
      ([⟨"Leo", "clb"⟩] : List SheetRow) ≠ [] ∧ ("Ana" : String) ∈ ["Leo", "Ana"]) ∧
    ((0 < ([⟨"Leo", "clb", "Leo", some 100, "✅", "match exact"⟩,
          ⟨"", "clb", "Ana", none, "🆕", "nouveau joueur à ajouter à ta data sheet"⟩] :
            List Row).countP
          (fun r => !(r.match_valide == "🆕") && (r.nom_tm == "Ana")) ∧
        ([⟨"Leo", "clb", "Leo", some 100, "✅", "match exact"⟩,
          ⟨"", "clb", "Ana", none, "🆕", "nouveau joueur à ajouter à ta data sheet"⟩] :
            List Row).countP
          (fun r => (r.match_valide == "🆕") && (r.nom_tm == "Ana")) = 0) ∨
      (([⟨"Leo", "clb", "Leo", some 100, "✅", "match exact"⟩,
          ⟨"", "clb", "Ana", none, "🆕", "nouveau joueur à ajouter à ta data sheet"⟩] :
            List Row).countP
          (fun r => !(r.match_valide == "🆕") && (r.nom_tm == "Ana")) = 0 ∧
        ([⟨"Leo", "clb", "Leo", some 100, "✅", "match exact"⟩,
          ⟨"", "clb", "Ana", none, "🆕", "nouveau joueur à ajouter à ta data sheet"⟩] :
            List Row).countP
          (fun r => (r.match_valide == "🆕") && (r.nom_tm == "Ana")) =
          (["Leo", "Ana"] : List String).count "Ana" ∧
        0 < (["Leo", "Ana"] : List String).count "Ana")) := by
  refine ⟨⟨by decide, by decide, by decide⟩, ?_⟩
  exact C3_external_reported (fun _ => ["Leo", "Ana"]) [⟨"Leo", "clb"⟩] "clb" 0
    [⟨"Leo", "clb", "Leo", some 100, "✅", "match exact"⟩,
      ⟨"", "clb", "Ana", none, "🆕", "nouveau joueur à ajouter à ta data sheet"⟩]
    (by decide) (by decide) "Ana" (by decide)

/-! ### The provider client's cache-failure behaviour -/

/-- C9 (amended): no retry is attempted for a cache-read failure, but the
code does not fall through to a live fetch either — whenever the cache is
fresh, the call returns exactly the outcome of the single cache read, so a
failed read propagates the error (surfaced by the request shell as a 500),
and the retry loop is never reached. -/
theorem C9_cache_read_propagates (env : FetchEnv)
    (hfresh : env.cache_fresh = true) :
    fetch_or_load_players env = env.cache_read := by
  unfold fetch_or_load_players
  rw [hfresh]
  rfl

/-- C9 counterexample: fresh cache whose read fails while a live fetch would
succeed with `["X"]`: the code returns the error instead of falling through
to the live fetch. -/
theorem C9_counterexample :
    fetch_or_load_players ⟨true, Except.error (), [some ["X"]]⟩ =
        Except.error () ∧
      attemptsResult (List.take MAX_RETRIES [some ["X"]]) = ["X"] :=
  ⟨rfl, rfl⟩

/-- Witness for C9's amended theorem on a concrete environment. -/
theorem C9_witness :
    (FetchEnv.mk true (Except.error ()) [some ["X"]]).cache_fresh = true ∧
      fetch_or_load_players (FetchEnv.mk true (Except.error ()) [some ["X"]]) =
        (FetchEnv.mk true (Except.error ()) [some ["X"]]).cache_read :=
  ⟨rfl, C9_cache_read_propagates _ rfl⟩

/-! ### Shape of the full report -/

lemma foldl_append_none (g : String × Nat → Option (List Row)) :
    ∀ cat : List (String × Nat),
      cat.foldl (fun acc p => acc.bind (fun rs => (g p).map (fun nw => rs ++ nw)))
        none = none := by
  intro cat
  induction cat with
  | nil => rfl
  | cons p cat ih => simpa using ih

lemma foldl_append_collect (g : String × Nat → Option (List Row)) :
    ∀ (cat : List (String × Nat)) (init : List Row),
      cat.foldl (fun acc p => acc.bind (fun rs => (g p).map (fun nw => rs ++ nw)))
        (some init) =
      (optMap g cat).map (fun ls => init ++ ls.flatten) := by
  intro cat
  induction cat with
  | nil => intro init; simp [optMap]
  | cons p cat ih =>
    intro init
    cases hgp : g p with
    | none => simp [optMap, hgp, foldl_append_none]
    | some nw =>
      simp only [List.foldl_cons, Option.some_bind, hgp, Option.map_some']
      rw [ih (init ++ nw)]
      cases hrest : optMap g cat with
      | none => simp [optMap, hgp, hrest]
      | some ls => simp [optMap, hgp, hrest, List.append_assoc]

/-- C7: the report is assembled in the fixed catalogue order (one block per
catalogue entry, concatenated); a club absent from the user table or with
an empty provider list contributes zero rows; and a club that runs emits
first its user-outcome rows, aligned in order with the club's user rows,
then its "new player" rows, whose names form an order-preserving selection
of the provider list. -/
theorem C7_report_order (rosters : Nat → List String) (df0 : List RawRow) :
    verifier_effectifs rosters df0 =
      (optMap (fun p => clubRows rosters (dropna df0) p.1 p.2)
        CLUB_SLUG_TO_ID).map List.flatten ∧
    (∀ slug club_id, clubSubset (dropna df0) slug = [] →
      clubRows rosters (dropna df0) slug club_id = some []) ∧
    (∀ slug club_id, rosters club_id = [] →
      clubRows rosters (dropna df0) slug club_id = some []) ∧
    (∀ slug club_id l, clubRows rosters (dropna df0) slug club_id = some l →
      rosters club_id ≠ [] →
      ∃ u v, l = u ++ v ∧
        u.map (fun r => r.nom_liste) =
          (clubSubset (dropna df0) slug).map (fun r => r.player_display_name) ∧
        (∀ r ∈ u, r.match_valide ≠ "🆕") ∧
        (∀ r ∈ v, r.match_valide = "🆕") ∧
        List.Sublist (v.map (fun r => r.nom_tm)) (rosters club_id)) := by
  refine ⟨?_, ?_, ?_, ?_⟩
  · unfold verifier_effectifs
    rw [foldl_append_collect]
    cases hrest : optMap (fun p => clubRows rosters (dropna df0) p.1 p.2)
        CLUB_SLUG_TO_ID with
    | none => rfl
    | some ls => simp
  · intro slug club_id hsub
    unfold clubRows
    rw [hsub]
    rfl
  · intro slug club_id hros
    unfold clubRows clubRowsCore
    by_cases h1 : (clubSubset (dropna df0) slug).isEmpty
    · rw [if_pos h1]
    · rw [if_neg h1]
      simp only [hros]
      rfl
  · intro slug club_id l h hros
    rcases clubRowsCore_eq_some h with ⟨hs, hl⟩ | ⟨hros', _⟩ |
      ⟨allT, allS, outs, hT, hS, houts, hl⟩
    · refine ⟨[], [], by simp [hl], ?_, by simp, by simp, by simp⟩
      rw [hs]
      rfl
    · exact absurd hros' hros
    · refine ⟨outs.map Prod.fst,
        ((rosters club_id).filter
          (fun t => !(outs.filterMap Prod.snd).contains t)).map (mkNewRow slug),
        hl, ?_, ?_, ?_, ?_⟩
      · rw [List.map_map]
        exact optMap_map _ _ houts
          (fun r o hro => (processUserRow_spec hro).2.1)
      · intro r hr
        obtain ⟨o, ho, hfo⟩ := List.mem_map.mp hr
        obtain ⟨srow, hsrow, hpo⟩ := optMap_mem houts o ho
        rw [← hfo]
        exact (processUserRow_spec hpo).1
      · intro r hr
        obtain ⟨t, _, hmk⟩ := List.mem_map.mp hr
        rw [← hmk]
        rfl
      · rw [List.map_map]
        have hid : ((fun r : Row => r.nom_tm) ∘ mkNewRow slug) = id := by
          funext t
          rfl
        rw [hid, List.map_id]
        exact List.filter_sublist _

/-- Witness for C7 on a concrete run: one user row for Barcelona, provider
list `["Leo", "Ana"]`; the report equation holds, an absent club and an
empty-roster club contribute zero rows, and the Barcelona block is the user
row followed by the "new player" row. -/
theorem C7_witness :
    verifier_effectifs (fun i => if i = 131 then ["Leo", "Ana"] else [])
        [⟨some "Leo", some "barcelona-barcelona"⟩] =
      (optMap (fun p => clubRows (fun i => if i = 131 then ["Leo", "Ana"] else [])
          (dropna [⟨some "Leo", some "barcelona-barcelona"⟩]) p.1 p.2)
        CLUB_SLUG_TO_ID).map List.flatten ∧
    (clubSubset (dropna [⟨some "Leo", some "barcelona-barcelona"⟩])
        "girona-girona" = [] ∧
      clubRows (fun i => if i = 131 then ["Leo", "Ana"] else [])
        (dropna [⟨some "Leo", some "barcelona-barcelona"⟩]) "girona-girona"
        12321 = some []) ∧
    ((fun i => if i = 131 then ["Leo", "Ana"] else []) 0 = [] ∧
      clubRows (fun i => if i = 131 then ["Leo", "Ana"] else [])
        (dropna [⟨some "Leo", some "barcelona-barcelona"⟩])
        "athletic-club-bilbao" 0 = some []) ∧
    (clubRows (fun i => if i = 131 then ["Leo", "Ana"] else [])
        (dropna [⟨some "Leo", some "barcelona-barcelona"⟩])
        "barcelona-barcelona" 131 =
      some [⟨"Leo", "barcelona-barcelona", "Leo", some 100, "✅", "match exact"⟩,
        ⟨"", "barcelona-barcelona", "Ana", none, "🆕",
          "nouveau joueur à ajouter à ta data sheet"⟩] ∧
      (fun i => if i = 131 then ["Leo", "Ana"] else []) 131 ≠ [] ∧
      ∃ u v,
        ([⟨"Leo", "barcelona-barcelona", "Leo", some 100, "✅", "match exact"⟩,
          ⟨"", "barcelona-barcelona", "Ana", none, "🆕",
            "nouveau joueur à ajouter à ta data sheet"⟩] : List Row) = u ++ v ∧
        u.map (fun r => r.nom_liste) =
          (clubSubset (dropna [⟨some "Leo", some "barcelona-barcelona"⟩])
            "barcelona-barcelona").map (fun r => r.player_display_name) ∧
        (∀ r ∈ u, r.match_valide ≠ "🆕") ∧
        (∀ r ∈ v, r.match_valide = "🆕") ∧
        List.Sublist (v.map (fun r => r.nom_tm))
          ((fun i => if i = 131 then ["Leo", "Ana"] else []) 131)) := by
  have h := C7_report_order (fun i => if i = 131 then ["Leo", "Ana"] else [])
    [⟨some "Leo", some "barcelona-barcelona"⟩]
  exact ⟨h.1, ⟨by decide, h.2.1 _ _ (by decide)⟩,
    ⟨by decide, h.2.2.1 _ _ (by decide)⟩,
    ⟨by decide, by decide, h.2.2.2 _ _ _ (by decide) (by decide)⟩⟩

/-! ### Unknown club slugs -/

lemma dropna_filter_catalog (df0 : List RawRow) :
    dropna (df0.filter
        (fun r => CLUB_SLUG_TO_ID.any (fun p => r.team_slug == some p.1))) =
      (dropna df0).filter
        (fun sr => CLUB_SLUG_TO_ID.any (fun p => sr.team_slug == p.1)) := by
  induction df0 with
  | nil => rfl
  | cons r df0 ih =>
    rcases r with ⟨pn, ts⟩
    cases pn with
    | none =>
      cases hk : (CLUB_SLUG_TO_ID.any
          (fun p => (RawRow.mk none ts).team_slug == some p.1)) <;>
        simp [dropna, List.filter_cons, List.filterMap_cons, hk] <;>
        simpa [dropna] using ih
    | some n =>
      cases ts with
      | none =>
        have hk : (CLUB_SLUG_TO_ID.any
            (fun p => (RawRow.mk (some n) none).team_slug == some p.1)) = false := by
          rw [List.any_eq_false]
          intro p _
          exact fun hb => Bool.noConfusion hb
        simp [dropna, List.filter_cons, List.filterMap_cons, hk]
        simpa [dropna] using ih
      | some s =>
        have hagree : (CLUB_SLUG_TO_ID.any
            (fun p => (RawRow.mk (some n) (some s)).team_slug == some p.1)) =
            (CLUB_SLUG_TO_ID.any
              (fun p => (SheetRow.mk n s).team_slug == p.1)) := rfl
        cases hk : (CLUB_SLUG_TO_ID.any
            (fun p => (SheetRow.mk n s).team_slug == p.1)) <;>
          simp [dropna, List.filter_cons, List.filterMap_cons, hagree, hk] <;>
          simpa [dropna] using ih

lemma clubSubset_filter_catalog (l : List SheetRow) (slug : String)
    (hslug : slug ∈ CLUB_SLUG_TO_ID.map Prod.fst) :
    clubSubset (l.filter
        (fun sr => CLUB_SLUG_TO_ID.any (fun p => sr.team_slug == p.1))) slug =
      clubSubset l slug := by
  unfold clubSubset
  rw [List.filter_filter]
  apply List.filter_congr
  intro sr _
  by_cases hs : sr.team_slug = slug
  · have hk : CLUB_SLUG_TO_ID.any (fun p => sr.team_slug == p.1) = true := by
      rw [List.any_eq_true]
      obtain ⟨p, hp, hps⟩ := List.mem_map.mp hslug
      refine ⟨p, hp, ?_⟩
      rw [hs, hps]
      exact beq_self_eq_true slug
    rw [hk, Bool.and_true]
  · have hbeq : (sr.team_slug == slug) = false := by
      rw [beq_eq_false_iff_ne]
      exact hs
    rw [hbeq, Bool.false_and]

lemma clubRows_filter_catalog (rosters : Nat → List String) (df0 : List RawRow)
    (slug : String) (club_id : Nat)
    (hslug : slug ∈ CLUB_SLUG_TO_ID.map Prod.fst) :
    clubRows rosters
        (dropna (df0.filter
          (fun r => CLUB_SLUG_TO_ID.any (fun p => r.team_slug == some p.1))))
        slug club_id =
      clubRows rosters (dropna df0) slug club_id := by
  unfold clubRows
  rw [dropna_filter_catalog, clubSubset_filter_catalog _ _ hslug]

lemma verifier_flatten (rosters : Nat → List String) (df0 : List RawRow) :
    verifier_effectifs rosters df0 =
      (optMap (fun p => clubRows rosters (dropna df0) p.1 p.2)
        CLUB_SLUG_TO_ID).map List.flatten := by
  unfold verifier_effectifs
  rw [foldl_append_collect]
  cases hrest : optMap (fun p => clubRows rosters (dropna df0) p.1 p.2)
      CLUB_SLUG_TO_ID with
  | none => rfl
  | some ls => simp

lemma clubRows_club {rosters : Nat → List String} {df : List SheetRow}
    {slug : String} {club_id : Nat} {l : List Row}
    (h : clubRows rosters df slug club_id = some l) :
    ∀ r ∈ l, r.club_liste = slug := by
  unfold clubRows at h
  rcases clubRowsCore_eq_some h with ⟨_, hl⟩ | ⟨_, hl⟩ |
    ⟨allT, allS, outs, hT, hS, houts, hl⟩
  · subst hl; intro r hr; cases hr
  · subst hl; intro r hr; cases hr
  · subst hl
    intro r hr
    rcases List.mem_append.mp hr with hru | hrn
    · obtain ⟨o, ho, hfo⟩ := List.mem_map.mp hru
      obtain ⟨srow, hsrow, hpo⟩ := optMap_mem houts o ho
      rw [← hfo]
      exact (processUserRow_spec hpo).2.2.1
    · obtain ⟨t, _, hmk⟩ := List.mem_map.mp hrn
      rw [← hmk]
      rfl

/-- C10: rows whose `team_slug` is not one of the catalogue's 20 slugs are
silently dropped (removing them changes nothing, so they produce no output
and no error), and every output row's club field is a catalogue slug. -/
theorem C10_unknown_slugs_dropped (rosters : Nat → List String)
    (df0 : List RawRow) :
    CLUB_SLUG_TO_ID.length = 20 ∧
    verifier_effectifs rosters
        (df0.filter
          (fun r => CLUB_SLUG_TO_ID.any (fun p => r.team_slug == some p.1))) =
      verifier_effectifs rosters df0 ∧
    (∀ rows, verifier_effectifs rosters df0 = some rows →
      ∀ r ∈ rows, ∃ p ∈ CLUB_SLUG_TO_ID, r.club_liste = p.1) := by
  refine ⟨rfl, ?_, ?_⟩
  · rw [verifier_flatten, verifier_flatten,
      optMap_congr (fun p hp =>
        clubRows_filter_catalog rosters df0 p.1 p.2
          (List.mem_map.mpr ⟨p, hp, rfl⟩))]
  · intro rows hrows r hr
    rw [verifier_flatten] at hrows
    rcases Option.map_eq_some'.mp hrows with ⟨ls, hls, hflat⟩
    rw [← hflat] at hr
    obtain ⟨l', hl', hrl'⟩ := List.mem_flatten.mp hr
    obtain ⟨p, hp, hgp⟩ := optMap_mem hls l' hl'
    exact ⟨p, hp, clubRows_club hgp r hrl'⟩

/-- Witness for C10: a concrete table with one unknown-slug row and one
Barcelona row — filtering the unknown row away leaves the result unchanged,
and each output row carries a catalogue slug. -/
theorem C10_witness :
    verifier_effectifs (fun i => if i = 131 then ["Leo", "Ana"] else [])
        (([⟨some "Bob", some "marte-fc"⟩,
          ⟨some "Leo", some "barcelona-barcelona"⟩] : List RawRow).filter
          (fun r => CLUB_SLUG_TO_ID.any (fun p => r.team_slug == some p.1))) =
      verifier_effectifs (fun i => if i = 131 then ["Leo", "Ana"] else [])
        [⟨some "Bob", some "marte-fc"⟩,
          ⟨some "Leo", some "barcelona-barcelona"⟩] ∧
    ∀ r ∈ ([⟨"Leo", "barcelona-barcelona", "Leo", some 100, "✅", "match exact"⟩,
        ⟨"", "barcelona-barcelona", "Ana", none, "🆕",
          "nouveau joueur à ajouter à ta data sheet"⟩] : List Row),
      ∃ p ∈ CLUB_SLUG_TO_ID, r.club_liste = p.1 := by
  have h := C10_unknown_slugs_dropped
    (fun i => if i = 131 then ["Leo", "Ana"] else [])
    [⟨some "Bob", some "marte-fc"⟩, ⟨some "Leo", some "barcelona-barcelona"⟩]
  exact ⟨h.2.1, h.2.2 _ (by decide)⟩
